import Mathlib

/-!
# Verification of the event-driven data pipeline

A shallow embedding of the decision logic of the pipeline:

* `src/lambda/kinesis-processor/handler.py` — record validation
  (`DataValidator.validate_record`), partition-path computation
  (`S3Writer.get_partition_path`), batch writing (`S3Writer.write_batch`),
  per-record processing (`process_record`) and the handler counting loop.
* `src/lambda/s3-transformer/handler.py` — enrichment categorization
  (`_categorize_amount`, `_categorize_duration`, `_categorize_metric_value`,
  `_detect_anomaly`), record-id generation (`_generate_record_id`, SHA-256
  over the key-sorted JSON serialization), and destination-key derivation
  (`S3Handler.write_transformed_data`).
* `src/data-producer/producer.py` — `KinesisProducer.send_batch` statistics.

Python dicts are modelled as insertion-ordered association lists, JSON
values as an inductive type with rational numbers, machine-level effects
(S3 puts, Kinesis calls) as boolean/optional oracles passed in as
parameters, and exceptions as `Option` results.
-/

/-- JSON values as decoded by Python's `json.loads`. Numbers are modelled as
rationals; objects keep insertion order, as Python dicts do. -/
inductive Json where
  | null : Json
  | bool : Bool → Json
  | num : ℚ → Json
  | str : String → Json
  | arr : List Json → Json
  | obj : List (String × Json) → Json

/-- A Python dict with string keys: an insertion-ordered association list.
Well-formed dicts have no duplicate keys; lookups take the first match. -/
abbrev PyDict := List (String × Json)

/-- `d[k]` lookup (first match, as in a dict whose keys are unique). -/
def pyGet (d : PyDict) (k : String) : Option Json :=
  List.lookup k d

/-- Python dict item assignment `d[k] = v` / `{**d, k: v}`: if the key is
present its value is replaced in place, otherwise the pair is appended. -/
def dictSet : PyDict → String → Json → PyDict
  | [], k, v => [(k, v)]
  | (k', v') :: rest, k, v =>
    if k' = k then (k', v) :: rest else (k', v') :: dictSet rest k v

/-- Sequential dict updates, as in a `{**data, 'a': x, 'b': y}` literal. -/
def dictSets (d : PyDict) : List (String × Json) → PyDict
  | [] => d
  | (k, v) :: rest => dictSets (dictSet d k v) rest

/-- One step of Python `str.replace` with explicit fuel (the fuel is always
instantiated with the length of the scanned list, which bounds the number of
steps; patterns used by the code are nonempty). Scans left to right, replaces
non-overlapping occurrences, and never rescans replaced text. -/
def replaceAux : Nat → List Char → List Char → List Char → List Char
  | 0, l, _, _ => l
  | fuel + 1, l, pat, rep =>
    match l with
    | [] => []
    | c :: rest =>
      if pat.isPrefixOf l then rep ++ replaceAux fuel (l.drop pat.length) pat rep
      else c :: replaceAux fuel rest pat rep

/-- Python `str.replace(pat, rep)` for a nonempty pattern. -/
def pyReplace (s pat rep : String) : String :=
  ⟨replaceAux s.data.length s.data pat.data rep.data⟩

/-- `true` iff `pat` occurs as a contiguous subsequence of `l`. -/
def containsSeq (pat : List Char) : List Char → Bool
  | [] => pat.isPrefixOf []
  | c :: rest => pat.isPrefixOf (c :: rest) || containsSeq pat rest

/-- The fields of a Python `datetime` relevant to partitioning, plus the
parsed UTC offset in minutes (`none` for a naive datetime). -/
structure PyDateTime where
  year : Nat
  month : Nat
  day : Nat
  hour : Nat
  minute : Nat
  second : Nat
  microsecond : Nat
  offMinutes : Option Int
deriving DecidableEq

/-- Numeric value of a decimal digit character. -/
def digitVal (c : Char) : Option Nat :=
  if c.isDigit then some (c.toNat - 48) else none

/-- Gregorian leap-year test, as in Python's `calendar`/`datetime`. -/
def isLeapYear (y : Nat) : Bool :=
  (y % 4 == 0 && y % 100 != 0) || y % 400 == 0

/-- Number of days in a month, as validated by `datetime`. -/
def daysInMonth (y m : Nat) : Nat :=
  if m = 2 then (if isLeapYear y then 29 else 28)
  else if m = 4 ∨ m = 6 ∨ m = 9 ∨ m = 11 then 30
  else 31

/-- Two decimal digits. -/
def twoDigits (c1 c2 : Char) : Option Nat := do
  let d1 ← digitVal c1
  let d2 ← digitVal c2
  pure (d1 * 10 + d2)

/-- Greedy run of decimal digits. -/
def takeDigits : List Char → List Nat × List Char
  | [] => ([], [])
  | c :: rest =>
    match digitVal c with
    | some d =>
      let (ds, rem) := takeDigits rest
      (d :: ds, rem)
    | none => ([], c :: rest)

/-- Parse a trailing UTC offset `±HH:MM` (or nothing, for a naive datetime).
The whole input must be consumed; the offset must be a valid `timezone`
offset (strictly less than 24 hours). -/
def parseOffsetEnd : List Char → Option (Option Int)
  | [] => some none
  | [s, c1, c2, ':', c3, c4] => do
    let h ← twoDigits c1 c2
    let m ← twoDigits c3 c4
    if h ≤ 23 ∧ m ≤ 59 then
      if s = '+' then some (some ((h * 60 + m : Nat) : Int))
      else if s = '-' then some (some (-((h * 60 + m : Nat) : Int)))
      else none
    else none
  | _ => none

/-- Parse `[. fraction]` then offset, after the seconds field. -/
def parseFracEnd (l : List Char) : Option (Nat × Option Int) :=
  match l with
  | '.' :: rest =>
    let (ds, rem) := takeDigits rest
    if 1 ≤ ds.length ∧ ds.length ≤ 6 then do
      let off ← parseOffsetEnd rem
      -- scale to microseconds: 1–6 digits are zero-extended to 6
      pure (ds.foldl (fun a d => a * 10 + d) 0 * 10 ^ (6 - ds.length), off)
    else none
  | rest => do
    let off ← parseOffsetEnd rest
    pure (0, off)

/-- Parse `HH:MM[:SS[.ffffff]][±HH:MM]`, consuming the whole input. -/
def parseTimeEnd : List Char → Option (Nat × Nat × Nat × Nat × Option Int)
  | h1 :: h2 :: ':' :: n1 :: n2 :: rest => do
    let h ← twoDigits h1 h2
    let n ← twoDigits n1 n2
    if h ≤ 23 ∧ n ≤ 59 then
      match rest with
      | ':' :: s1 :: s2 :: rest' => do
        let s ← twoDigits s1 s2
        if s ≤ 59 then do
          let (us, off) ← parseFracEnd rest'
          pure (h, n, s, us, off)
        else none
      | rest' => do
        let off ← parseOffsetEnd rest'
        pure (h, n, 0, 0, off)
    else none
  | _ => none

/-- Model of Python's `datetime.fromisoformat` on the formats the pipeline
exchanges: `YYYY-MM-DD[{T| }HH:MM[:SS[.ffffff]][±HH:MM]]`, with calendar
and range validation. Returns `none` where Python raises `ValueError`. -/
def fromisoformat (s : String) : Option PyDateTime :=
  match s.data with
  | y1 :: y2 :: y3 :: y4 :: '-' :: m1 :: m2 :: '-' :: d1 :: d2 :: rest => do
    let yh ← twoDigits y1 y2
    let yl ← twoDigits y3 y4
    let mo ← twoDigits m1 m2
    let d ← twoDigits d1 d2
    let y := yh * 100 + yl
    if 1 ≤ y ∧ 1 ≤ mo ∧ mo ≤ 12 ∧ 1 ≤ d ∧ d ≤ daysInMonth y mo then
      match rest with
      | [] => pure ⟨y, mo, d, 0, 0, 0, 0, none⟩
      | sep :: tl =>
        if sep = 'T' ∨ sep = ' ' then do
          let (h, n, sec, us, off) ← parseTimeEnd tl
          pure ⟨y, mo, d, h, n, sec, us, off⟩
        else none
    else none
  | _ => none

/-- `n` formatted as `f"{n:02d}"` (for the nonnegative values produced by
`datetime` fields): zero-padded to at least two digits. -/
def pad2 (n : Nat) : String :=
  if n < 10 then "0" ++ toString n else toString n

/-- `S3Writer.get_partition_path` (kinesis-processor handler, lines 68–72):
parses the timestamp with the trailing-`Z` substitution and renders the
partition path. `none` models the `ValueError`/`AttributeError` that the
caller catches. -/
def get_partition_path (timestamp event_type : String) : Option String :=
  (fromisoformat (pyReplace timestamp "Z" "+00:00")).map fun dt =>
    "event_type=" ++ event_type ++ "/year=" ++ toString dt.year ++
      "/month=" ++ pad2 dt.month ++ "/day=" ++ pad2 dt.day ++
      "/hour=" ++ pad2 dt.hour

/-- Rendering of a JSON number. `json.dumps` renders Python ints/floats by
their `repr`; the model renders the rational exactly (integers without a
denominator). The claims depend only on this being a fixed function of the
value. -/
def renderNum (q : ℚ) : String :=
  if q.den = 1 then toString q.num else toString q.num ++ "/" ++ toString q.den

/-- `json.dumps` escaping of one character inside a string literal (the
claims only need quotes and backslashes to round-trip unambiguously). -/
def escChar (c : Char) : List Char :=
  if c = '"' then ['\\', '"'] else if c = '\\' then ['\\', '\\'] else [c]

/-- A JSON string literal: quoted, with escaping. -/
def renderStr (s : String) : String :=
  "\"" ++ ⟨(s.data.map escChar).flatten⟩ ++ "\""

/-- Key order used by `json.dumps(..., sort_keys=True)`: pairs compare by
their (unique) keys. -/
def pairLe (a b : String × String) : Prop := a.1 ≤ b.1

instance : DecidableRel pairLe := fun a b => inferInstanceAs (Decidable (a.1 ≤ b.1))

instance : IsTotal (String × String) pairLe := ⟨fun a b => le_total a.1 b.1⟩

instance : IsTrans (String × String) pairLe := ⟨fun _ _ _ h1 h2 => le_trans h1 h2⟩

/-- `sorted(d.items())` for a dict with unique keys: sorting by key. -/
def sortPairs (l : List (String × String)) : List (String × String) :=
  l.insertionSort pairLe

/-- Join already-rendered `key: value` members with `", "`, the default
`json.dumps` separators. -/
def joinPairs : List (String × String) → String
  | [] => ""
  | [(k, v)] => renderStr k ++ ": " ++ v
  | (k, v) :: rest => renderStr k ++ ": " ++ v ++ ", " ++ joinPairs rest

mutual

/-- `json.dumps(v, sort_keys=True)` with the default separators. Object
members are rendered first and then sorted by key — since rendering keeps
each key, this equals sorting the members and then rendering them. -/
def dumps : Json → String
  | .null => "null"
  | .bool true => "true"
  | .bool false => "false"
  | .num q => renderNum q
  | .str s => renderStr s
  | .arr xs => "[" ++ dumpsElems xs ++ "]"
  | .obj fs => "\x7b" ++ joinPairs (sortPairs (renderFields fs)) ++ "\x7d"

/-- Array elements joined with `", "`. -/
def dumpsElems : List Json → String
  | [] => ""
  | [x] => dumps x
  | x :: y :: xs => dumps x ++ ", " ++ dumpsElems (y :: xs)

/-- Render each object member's value, keeping its key. -/
def renderFields : List (String × Json) → List (String × String)
  | [] => []
  | (k, v) :: fs => (k, dumps v) :: renderFields fs

end

/-- UTF-8 encoding of one character, as a list of byte values. -/
def charUtf8 (c : Char) : List Nat :=
  let n := c.toNat
  if n < 128 then [n]
  else if n < 2048 then [192 + n / 64, 128 + n % 64]
  else if n < 65536 then [224 + n / 4096, 128 + n / 64 % 64, 128 + n % 64]
  else [240 + n / 262144, 128 + n / 4096 % 64, 128 + n / 64 % 64, 128 + n % 64]

/-- `str.encode()`: UTF-8 bytes of a string. -/
def utf8Encode (s : String) : List Nat :=
  (s.data.map charUtf8).flatten

/-- Truncation to a 32-bit word. -/
def w32 (n : Nat) : Nat := n % 4294967296

/-- Right rotation of a 32-bit word. -/
def rotr32 (k x : Nat) : Nat := w32 ((x >>> k) ||| (x <<< (32 - k)))

/-- SHA-256 small sigma 0. -/
def ssig0 (x : Nat) : Nat := rotr32 7 x ^^^ rotr32 18 x ^^^ (x >>> 3)

/-- SHA-256 small sigma 1. -/
def ssig1 (x : Nat) : Nat := rotr32 17 x ^^^ rotr32 19 x ^^^ (x >>> 10)

/-- SHA-256 big sigma 0. -/
def bsig0 (x : Nat) : Nat := rotr32 2 x ^^^ rotr32 13 x ^^^ rotr32 22 x

/-- SHA-256 big sigma 1. -/
def bsig1 (x : Nat) : Nat := rotr32 6 x ^^^ rotr32 11 x ^^^ rotr32 25 x

/-- SHA-256 choice function. -/
def chF (e f g : Nat) : Nat := (e &&& f) ^^^ ((4294967295 - w32 e) &&& g)

/-- SHA-256 majority function. -/
def majF (a b c : Nat) : Nat := (a &&& b) ^^^ (a &&& c) ^^^ (b &&& c)

/-- The 64 SHA-256 round constants of FIPS 180-4 (the first 32 bits of the
fractional parts of the cube roots of the first 64 primes), in decimal. -/
def sha256K : List Nat :=
  [1116352408, 1899447441, 3049323471, 3921009573, 961987163, 1508970993,
   2453635748, 2870763221, 3624381080, 310598401, 607225278, 1426881987,
   1925078388, 2162078206, 2614888103, 3248222580, 3835390401, 4022224774,
   264347078, 604807628, 770255983, 1249150122, 1555081692, 1996064986,
   2554220882, 2821834349, 2952996808, 3210313671, 3336571891, 3584528711,
   113926993, 338241895, 666307205, 773529912, 1294757372, 1396182291,
   1695183700, 1986661051, 2177026350, 2456956037, 2730485921, 2820302411,
   3259730800, 3345764771, 3516065817, 3600352804, 4094571909, 275423344,
   430227734, 506948616, 659060556, 883997877, 958139571, 1322822218,
   1537002063, 1747873779, 1955562222, 2024104815, 2227730452, 2361852424,
   2428436474, 2756734187, 3204031479, 3329325298]

/-- The eight-word SHA-256 working state / hash state. -/
structure Sha256State where
  a : Nat
  b : Nat
  c : Nat
  d : Nat
  e : Nat
  f : Nat
  g : Nat
  h : Nat
deriving DecidableEq

/-- The SHA-256 initial hash value of FIPS 180-4 (the first 32 bits of the
fractional parts of the square roots of the first 8 primes), in decimal. -/
def sha256H0 : Sha256State :=
  ⟨1779033703, 3144134277, 1013904242, 2773480762,
   1359893119, 2600822924, 528734635, 1541459225⟩

/-- `k` bytes of `n`, big-endian. -/
def beBytes (k n : Nat) : List Nat :=
  (List.range k).map fun i => n >>> (8 * (k - 1 - i)) % 256

/-- SHA-256 message padding: a `0x80` byte, zeros to 56 mod 64, then the
bit length in 8 big-endian bytes. -/
def sha256Pad (msg : List Nat) : List Nat :=
  msg ++ [128] ++ List.replicate ((119 - msg.length % 64) % 64) 0
    ++ beBytes 8 (msg.length * 8)

/-- Big-endian 4-byte groups to 32-bit words. -/
def bytesToWords : List Nat → List Nat
  | b1 :: b2 :: b3 :: b4 :: rest =>
    (b1 * 16777216 + b2 * 65536 + b3 * 256 + b4) :: bytesToWords rest
  | _ => []

/-- Split a word list into 16-word blocks. -/
def blocks16 (ws : List Nat) : List (List Nat) :=
  if h : ws = [] then []
  else ws.take 16 :: blocks16 (ws.drop 16)
termination_by ws.length
decreasing_by
  have : 0 < ws.length := List.length_pos.mpr h
  simp only [List.length_drop]
  omega

/-- Extend a 16-word block to the 64-word message schedule. -/
def sha256Schedule (block : List Nat) : List Nat :=
  (List.range 48).foldl
    (fun w _ =>
      w ++ [w32 (ssig1 (w.getD (w.length - 2) 0) + w.getD (w.length - 7) 0 +
        ssig0 (w.getD (w.length - 15) 0) + w.getD (w.length - 16) 0)])
    block

/-- One SHA-256 compression round. -/
def sha256Round (st : Sha256State) (kw : Nat × Nat) : Sha256State :=
  let t1 := w32 (st.h + bsig1 st.e + chF st.e st.f st.g + kw.1 + kw.2)
  let t2 := w32 (bsig0 st.a + majF st.a st.b st.c)
  ⟨w32 (t1 + t2), st.a, st.b, st.c, w32 (st.d + t1), st.e, st.f, st.g⟩

/-- Process one 16-word block into the running hash state. -/
def sha256Block (h0 : Sha256State) (block : List Nat) : Sha256State :=
  let st := (sha256K.zip (sha256Schedule block)).foldl sha256Round h0
  ⟨w32 (h0.a + st.a), w32 (h0.b + st.b), w32 (h0.c + st.c), w32 (h0.d + st.d),
   w32 (h0.e + st.e), w32 (h0.f + st.f), w32 (h0.g + st.g), w32 (h0.h + st.h)⟩

/-- The 32 digest bytes of a final hash state, big-endian per word. -/
def stateBytes (st : Sha256State) : List Nat :=
  beBytes 4 st.a ++ beBytes 4 st.b ++ beBytes 4 st.c ++ beBytes 4 st.d ++
    beBytes 4 st.e ++ beBytes 4 st.f ++ beBytes 4 st.g ++ beBytes 4 st.h

/-- `hashlib.sha256(msg).digest()`: the 32-byte SHA-256 digest. -/
def sha256 (msg : List Nat) : List Nat :=
  stateBytes ((blocks16 (bytesToWords (sha256Pad msg))).foldl sha256Block sha256H0)

/-- A lowercase hexadecimal digit character. -/
def hexDigit (n : Nat) : Char :=
  if n < 10 then Char.ofNat (48 + n) else Char.ofNat (87 + n)

/-- Two lowercase hex characters of one byte. -/
def byteHex (b : Nat) : List Char :=
  [hexDigit (b / 16 % 16), hexDigit (b % 16)]

/-- `hashlib.sha256(msg).hexdigest()` as a character list. -/
def hexdigestChars (msg : List Nat) : List Char :=
  ((sha256 msg).map byteHex).flatten

/-- `DataTransformer._generate_record_id` (s3-transformer handler, lines
78–82): the first 16 hex characters of the SHA-256 of the key-sorted JSON
serialization of the record. -/
def generate_record_id (record : Json) : String :=
  ⟨(hexdigestChars (utf8Encode (dumps record))).take 16⟩

/-- Python `str(v)` for a decoded JSON value, as interpolated into an
f-string. Strings interpolate as their raw content; other values by their
representation (modelled with the JSON rendering — the claims only depend
on the fixed text around the interpolation). -/
def pyStrJson : Json → String
  | .str s => s
  | v => dumps v

/-- `timestamp`, `event_type` and `data`: `required_fields` of the
validator, in source order. -/
def required_fields : List String := ["timestamp", "event_type", "data"]

/-- `record['event_type'] in valid_event_types` with the source's list
`['user_action', 'system_event', 'transaction', 'metric']`: Python `in`
compares by equality, so only an equal string matches. -/
def isValidEventType : Json → Bool
  | .str s =>
    s == "user_action" || s == "system_event" || s == "transaction" || s == "metric"
  | _ => false

/-- `DataValidator.validate_record` (kinesis-processor handler, lines
36–62): checks the three required fields in order, then that the timestamp
(a string — any non-string raises `AttributeError` at `.replace`, caught as
an invalid timestamp) parses after the `Z → +00:00` substitution, then the
event type. Returns `(is_valid, error_message)`. -/
def validate_record (r : PyDict) : Bool × String :=
  match pyGet r "timestamp" with
  | none => (false, "Missing required field: timestamp")
  | some tsv =>
    match pyGet r "event_type" with
    | none => (false, "Missing required field: event_type")
    | some etv =>
      match pyGet r "data" with
      | none => (false, "Missing required field: data")
      | some _ =>
        match tsv with
        | .str ts =>
          match fromisoformat (pyReplace ts "Z" "+00:00") with
          | none => (false, "Invalid timestamp format")
          | some _ =>
            if isValidEventType etv then (true, "")
            else (false, "Invalid event_type: " ++ pyStrJson etv)
        | _ => (false, "Invalid timestamp format")

/-- The partition of one record inside `S3Writer.write_batch` (lines
89–101): `record['timestamp']` (which must be a string for `.replace`) and
`record['event_type']` (interpolated into the path) feed
`get_partition_path`; `none` models the caught per-record exception. -/
def partitionOf (r : PyDict) : Option String :=
  match pyGet r "timestamp", pyGet r "event_type" with
  | some (.str ts), some et => get_partition_path ts (pyStrJson et)
  | _, _ => none

/-- The statistics dict returned by `S3Writer.write_batch`. -/
structure BatchStats where
  total : Nat
  success : Nat
  failed : Nat
  partitions : Nat
deriving DecidableEq

/-- Append a record to its partition's group, preserving dict insertion
order (`partitioned_records[partition].append(record)`). -/
def addToGroups (gs : List (String × List PyDict)) (p : String) (r : PyDict) :
    List (String × List PyDict) :=
  match gs with
  | [] => [(p, [r])]
  | (q, rs) :: rest =>
    if q = p then (q, rs ++ [r]) :: rest else (q, rs) :: addToGroups rest p r

/-- One iteration of the grouping loop of `write_batch`: a record that
fails partitioning only increments `failed`. -/
def groupStep (acc : List (String × List PyDict) × Nat) (r : PyDict) :
    List (String × List PyDict) × Nat :=
  match partitionOf r with
  | some p => (addToGroups acc.1 p r, acc.2)
  | none => (acc.1, acc.2 + 1)

/-- One iteration of the writing loop of `write_batch`: the S3 put for a
partition group either succeeds (its records count as `success`) or raises
(they count as `failed`); `writeOk` is the S3 collaborator's outcome per
partition. -/
def writeStep (writeOk : String → Bool) (acc : Nat × Nat)
    (g : String × List PyDict) : Nat × Nat :=
  if writeOk g.1 then (acc.1 + g.2.length, acc.2) else (acc.1, acc.2 + g.2.length)

/-- `S3Writer.write_batch` (kinesis-processor handler, lines 75–136):
groups records by partition (counting partitioning failures), writes one
object per partition group (counting write failures per group), and
finishes with `total = success + failed` and the distinct-partition count. -/
def write_batch (writeOk : String → Bool) (records : List PyDict) : BatchStats :=
  let grouped := records.foldl groupStep ([], 0)
  let written := grouped.1.foldl (writeStep writeOk) (0, grouped.2)
  { total := written.1 + written.2, success := written.1, failed := written.2,
    partitions := grouped.1.length }

/-- The transport metadata of one Kinesis record. -/
structure KinesisMeta where
  sequenceNumber : String
  partitionKey : String
  approximateArrivalTimestamp : ℚ

/-- The `kinesis_metadata` dict attached by `process_record`. -/
def kinesisMetaJson (m : KinesisMeta) : Json :=
  .obj [("sequence_number", .str m.sequenceNumber),
        ("partition_key", .str m.partitionKey),
        ("approximate_arrival_timestamp", .num m.approximateArrivalTimestamp)]

/-- `process_record` (kinesis-processor handler, lines 167–198), with the
base64+JSON decode outcome of the record's payload supplied by the
transport collaborator (`none` models a decode failure). When validation
is enabled, a decoded non-dict value always fails validation (a membership
test or attribute access on it raises, which the validator catches); when
validation is disabled, attaching `kinesis_metadata` to a non-dict raises
`TypeError`, caught by the record's exception handler — so a non-dict
decodes to `None` either way. A decoded dict gets `kinesis_metadata`
attached and is returned. -/
def process_record (validation : Bool) (payload : Option Json)
    (m : KinesisMeta) : Option PyDict :=
  match payload with
  | none => none
  | some j =>
    match j with
    | .obj fields =>
      if validation ∧ ¬(validate_record fields).1 then none
      else some (dictSet fields "kinesis_metadata" (kinesisMetaJson m))
    | _ => none

/-- Python truthiness of a `process_record` result, as tested by
`if processed:` in `lambda_handler` (line 223): `None` is falsy and a dict
is truthy iff it is nonempty. -/
def pyTruthy : Option PyDict → Bool
  | none => false
  | some d => !d.isEmpty

/-- One iteration of the counting loop of `lambda_handler`
(kinesis-processor handler, lines 219–226): a truthy processed record is
retained (appended to `processed_records`), anything else increments
`invalid_count`. -/
def handlerStep (validation : Bool) (acc : Nat × Nat)
    (kr : Option Json × KinesisMeta) : Nat × Nat :=
  if pyTruthy (process_record validation kr.1 kr.2) then (acc.1 + 1, acc.2)
  else (acc.1, acc.2 + 1)

/-- The `(processed, invalid)` counts of the `lambda_handler` loop over the
delivered records. -/
def handler_counts (validation : Bool)
    (krs : List (Option Json × KinesisMeta)) : Nat × Nat :=
  krs.foldl (handlerStep validation) (0, 0)

/-- `data.get(key, 0)` coerced to a number for comparison/arithmetic:
a missing key defaults to `0`; JSON numbers are themselves; Python booleans
are numeric (`True == 1`, `False == 0`); any other value raises `TypeError`
at the comparison (modelled as `none` and caught by the transformer's
per-record handler). -/
def getNum (d : PyDict) (k : String) : Option ℚ :=
  match pyGet d k with
  | none => some 0
  | some (.num q) => some q
  | some (.bool b) => some (if b then 1 else 0)
  | some _ => none

/-- `DataTransformer._categorize_amount` (s3-transformer handler, lines
119–129). -/
def categorize_amount (amount : ℚ) : String :=
  if amount < 10 then "micro"
  else if amount < 100 then "small"
  else if amount < 1000 then "medium"
  else "large"

/-- `DataTransformer._categorize_duration` (s3-transformer handler, lines
131–139). -/
def categorize_duration (duration : ℚ) : String :=
  if duration < 60 then "short"
  else if duration < 600 then "medium"
  else "long"

/-- `DataTransformer._categorize_metric_value` (s3-transformer handler,
lines 141–151). -/
def categorize_metric_value (value : ℚ) : String :=
  if value < 0 then "negative"
  else if value < 50 then "low"
  else if value < 100 then "normal"
  else "high"

/-- `DataTransformer._detect_anomaly` (s3-transformer handler, lines
153–157). -/
def detect_anomaly (value : ℚ) : Bool :=
  decide (value < 0) || decide (value > 200)

/-- `DataTransformer._enrich_transaction` (s3-transformer handler, lines
84–93): `{**data, 'transaction_date': today, 'amount_category': ...,
'is_high_value': amount > 1000}`, with `today` the current-date string
supplied by the clock collaborator. `none` models the `TypeError` a
non-numeric amount raises. -/
def enrich_transaction (data : PyDict) (today : String) : Option PyDict :=
  (getNum data "amount").map fun amount =>
    dictSets data
      [("transaction_date", .str today),
       ("amount_category", .str (categorize_amount amount)),
       ("is_high_value", .bool (decide (amount > 1000)))]

/-- `DataTransformer._enrich_user_action` (s3-transformer handler, lines
95–105). -/
def enrich_user_action (data : PyDict) (today : String) : Option PyDict :=
  (getNum data "session_duration").map fun duration =>
    dictSets data
      [("action_date", .str today),
       ("session_duration_category", .str (categorize_duration duration))]

/-- `DataTransformer._enrich_metric` (s3-transformer handler, lines
107–117). -/
def enrich_metric (data : PyDict) (today : String) : Option PyDict :=
  (getNum data "value").map fun value =>
    dictSets data
      [("metric_date", .str today),
       ("value_range", .str (categorize_metric_value value)),
       ("is_anomaly", .bool (detect_anomaly value))]

/-- The cumulative statistics dict of `KinesisProducer`. Counts are modelled
as integers, as in Python. -/
structure ProducerStats where
  sent : Int
  failed : Int
  total_bytes : Nat
deriving DecidableEq

/-- The wire size of one record: `len(json.dumps(record).encode('utf-8'))`. -/
def recordBytes (r : Json) : Nat := (utf8Encode (dumps r)).length

/-- `KinesisProducer.send_batch` (producer.py, lines 139–177): on a
successful `put_records` call (`transport = some failedCount`, the
response's `FailedRecordCount`), `success = len(records) - failed` and the
cumulative counters and byte total advance; if the call itself raises
(`transport = none`), the exception handler counts the whole batch as
failed and returns `{'success': 0, 'failed': len(records)}`. Returns the
new statistics and the `(success, failed)` pair. -/
def send_batch (stats : ProducerStats) (records : List Json)
    (transport : Option Nat) : ProducerStats × Int × Int :=
  match transport with
  | some failedCount =>
    let successCount : Int := (records.length : Int) - (failedCount : Int)
    ({ sent := stats.sent + successCount,
       failed := stats.failed + (failedCount : Int),
       total_bytes := stats.total_bytes + (records.map recordBytes).sum },
     successCount, (failedCount : Int))
  | none =>
    ({ stats with failed := stats.failed + (records.length : Int) },
     0, (records.length : Int))

/-- The destination-key derivation of `S3Handler.write_transformed_data`
(s3-transformer handler, lines 182–214): `original_key.replace('raw/',
'processed/')` then `.replace('.json', '_transformed_' + ts + '.json')`,
with `ts` the uniqueness timestamp supplied by the clock collaborator. -/
def new_key (original_key ts : String) : String :=
  pyReplace (pyReplace original_key "raw/" "processed/") ".json"
    ("_transformed_" ++ ts ++ ".json")

/-- The transformer's acceptance test on an object key (s3-transformer
handler, lines 277–279): under the raw zone and with the JSON extension. -/
def acceptedKey (key : String) : Bool :=
  "raw/".data.isPrefixOf key.data && ".json".data.isSuffixOf key.data

/-! ## Dictionary lemmas -/

theorem lookup_dictSet_self (d : PyDict) (k : String) (v : Json) :
    pyGet (dictSet d k v) k = some v := by
  induction d with
  | nil => simp [pyGet, dictSet, List.lookup]
  | cons kv rest ih =>
    obtain ⟨k', v'⟩ := kv
    by_cases h : k' = k
    · subst h
      simp [pyGet, dictSet, List.lookup]
    · simp only [pyGet, dictSet, if_neg h, List.lookup]
      have : (k == k') = false := by
        simp [beq_eq_false_iff_ne]
        exact fun he => h he.symm
      simp [this]
      exact ih

theorem lookup_dictSet_ne (d : PyDict) (k k' : String) (v : Json)
    (h : k ≠ k') : pyGet (dictSet d k' v) k = pyGet d k := by
  induction d with
  | nil => simp [pyGet, dictSet, List.lookup, beq_eq_false_iff_ne.mpr h]
  | cons kv rest ih =>
    obtain ⟨k0, v0⟩ := kv
    by_cases h0 : k0 = k'
    · subst h0
      have : (k == k0) = false := beq_eq_false_iff_ne.mpr h
      simp [pyGet, dictSet, List.lookup, this]
    · simp only [pyGet, dictSet, if_neg h0, List.lookup]
      by_cases hk : k = k0
      · subst hk
        simp
      · simp [beq_eq_false_iff_ne.mpr hk]
        exact ih

/-! ## C4–C6: enrichment categorization -/

theorem categorize_amount_spec (a : ℚ) :
    (categorize_amount a = "micro" ↔ a < 10) ∧
    (categorize_amount a = "small" ↔ 10 ≤ a ∧ a < 100) ∧
    (categorize_amount a = "medium" ↔ 100 ≤ a ∧ a < 1000) ∧
    (categorize_amount a = "large" ↔ 1000 ≤ a) := by
  unfold categorize_amount
  split_ifs with h1 h2 h3
  · exact ⟨iff_of_true rfl h1,
      iff_of_false (by decide) (fun hc => by linarith [hc.1]),
      iff_of_false (by decide) (fun hc => by linarith [hc.1]),
      iff_of_false (by decide) (fun hc => by linarith)⟩
  · push_neg at h1
    exact ⟨iff_of_false (by decide) (fun hc => by linarith),
      iff_of_true rfl ⟨h1, h2⟩,
      iff_of_false (by decide) (fun hc => by linarith [hc.1]),
      iff_of_false (by decide) (fun hc => by linarith)⟩
  · push_neg at h1 h2
    exact ⟨iff_of_false (by decide) (fun hc => by linarith),
      iff_of_false (by decide) (fun hc => by linarith [hc.2]),
      iff_of_true rfl ⟨h2, h3⟩,
      iff_of_false (by decide) (fun hc => by linarith)⟩
  · push_neg at h1 h2 h3
    exact ⟨iff_of_false (by decide) (fun hc => by linarith),
      iff_of_false (by decide) (fun hc => by linarith [hc.2]),
      iff_of_false (by decide) (fun hc => by linarith [hc.2]),
      iff_of_true rfl h3⟩

/-- **C4.** For every transaction record, the enrichment computes
`amount_category` as `micro` when the amount is below 10, `small` below
100, `medium` below 1000 and `large` otherwise (inclusive-low boundaries),
and sets `is_high_value` to true exactly when the amount exceeds 1000;
amounts 5, 50, 500, 5000 map to micro, small, medium, large. -/
theorem c4_transaction_amount_categorization
    (data : PyDict) (today : String) (amount : ℚ)
    (h : getNum data "amount" = some amount) :
    (∃ d, enrich_transaction data today = some d ∧
      pyGet d "amount_category" = some (.str (categorize_amount amount)) ∧
      pyGet d "is_high_value" = some (.bool (decide (amount > 1000)))) ∧
    (categorize_amount amount = "micro" ↔ amount < 10) ∧
    (categorize_amount amount = "small" ↔ 10 ≤ amount ∧ amount < 100) ∧
    (categorize_amount amount = "medium" ↔ 100 ≤ amount ∧ amount < 1000) ∧
    (categorize_amount amount = "large" ↔ 1000 ≤ amount) ∧
    (decide (amount > 1000) = true ↔ amount > 1000) ∧
    categorize_amount 5 = "micro" ∧ categorize_amount 50 = "small" ∧
    categorize_amount 500 = "medium" ∧ categorize_amount 5000 = "large" := by
  obtain ⟨s1, s2, s3, s4⟩ := categorize_amount_spec amount
  refine ⟨?_, s1, s2, s3, s4, by simp, by decide, by decide, by decide, by decide⟩
  have he : enrich_transaction data today =
      some (dictSets data
        [("transaction_date", .str today),
         ("amount_category", .str (categorize_amount amount)),
         ("is_high_value", .bool (decide (amount > 1000)))]) := by
    simp [enrich_transaction, h]
  refine ⟨_, he, ?_, ?_⟩
  · simp only [dictSets]
    rw [lookup_dictSet_ne _ _ _ _ (by decide), lookup_dictSet_self]
  · simp only [dictSets]
    rw [lookup_dictSet_self]

/-- Witness for C4 at a concrete record with amount 5. -/
theorem c4_transaction_amount_categorization_witness :
    getNum [("amount", Json.num 5)] "amount" = some 5 ∧
    (∃ d, enrich_transaction [("amount", Json.num 5)] "2024-01-01" = some d ∧
      pyGet d "amount_category" = some (.str (categorize_amount 5)) ∧
      pyGet d "is_high_value" = some (.bool (decide ((5 : ℚ) > 1000)))) ∧
    categorize_amount 5 = "micro" :=
  ⟨by decide,
   (c4_transaction_amount_categorization [("amount", Json.num 5)] "2024-01-01" 5
     (by decide)).1,
   (c4_transaction_amount_categorization [("amount", Json.num 5)] "2024-01-01" 5
     (by decide)).2.2.2.2.2.2.1⟩

theorem categorize_metric_value_spec (v : ℚ) :
    (categorize_metric_value v = "negative" ↔ v < 0) ∧
    (categorize_metric_value v = "low" ↔ 0 ≤ v ∧ v < 50) ∧
    (categorize_metric_value v = "normal" ↔ 50 ≤ v ∧ v < 100) ∧
    (categorize_metric_value v = "high" ↔ 100 ≤ v) := by
  unfold categorize_metric_value
  split_ifs with h1 h2 h3
  · exact ⟨iff_of_true rfl h1,
      iff_of_false (by decide) (fun hc => by linarith [hc.1]),
      iff_of_false (by decide) (fun hc => by linarith [hc.1]),
      iff_of_false (by decide) (fun hc => by linarith)⟩
  · push_neg at h1
    exact ⟨iff_of_false (by decide) (fun hc => by linarith),
      iff_of_true rfl ⟨h1, h2⟩,
      iff_of_false (by decide) (fun hc => by linarith [hc.1]),
      iff_of_false (by decide) (fun hc => by linarith)⟩
  · push_neg at h1 h2
    exact ⟨iff_of_false (by decide) (fun hc => by linarith),
      iff_of_false (by decide) (fun hc => by linarith [hc.2]),
      iff_of_true rfl ⟨h2, h3⟩,
      iff_of_false (by decide) (fun hc => by linarith)⟩
  · push_neg at h1 h2 h3
    exact ⟨iff_of_false (by decide) (fun hc => by linarith),
      iff_of_false (by decide) (fun hc => by linarith [hc.2]),
      iff_of_false (by decide) (fun hc => by linarith [hc.2]),
      iff_of_true rfl h3⟩

/-- **C5.** For every metric record, the enrichment computes `value_range`
as `negative` below 0, `low` below 50, `normal` below 100 and `high`
otherwise, and sets `is_anomaly` to true iff the value is below 0 or above
200; values 50 and 100 are not anomalies while -10 and 250 are. -/
theorem c5_metric_value_categorization_and_anomaly
    (data : PyDict) (today : String) (value : ℚ)
    (h : getNum data "value" = some value) :
    (∃ d, enrich_metric data today = some d ∧
      pyGet d "value_range" = some (.str (categorize_metric_value value)) ∧
      pyGet d "is_anomaly" = some (.bool (detect_anomaly value))) ∧
    (categorize_metric_value value = "negative" ↔ value < 0) ∧
    (categorize_metric_value value = "low" ↔ 0 ≤ value ∧ value < 50) ∧
    (categorize_metric_value value = "normal" ↔ 50 ≤ value ∧ value < 100) ∧
    (categorize_metric_value value = "high" ↔ 100 ≤ value) ∧
    (detect_anomaly value = true ↔ value < 0 ∨ value > 200) ∧
    detect_anomaly 50 = false ∧ detect_anomaly 100 = false ∧
    detect_anomaly (-10) = true ∧ detect_anomaly 250 = true := by
  obtain ⟨s1, s2, s3, s4⟩ := categorize_metric_value_spec value
  refine ⟨?_, s1, s2, s3, s4, by simp [detect_anomaly],
    by decide, by decide, by decide, by decide⟩
  have he : enrich_metric data today =
      some (dictSets data
        [("metric_date", .str today),
         ("value_range", .str (categorize_metric_value value)),
         ("is_anomaly", .bool (detect_anomaly value))]) := by
    simp [enrich_metric, h]
  refine ⟨_, he, ?_, ?_⟩
  · simp only [dictSets]
    rw [lookup_dictSet_ne _ _ _ _ (by decide), lookup_dictSet_self]
  · simp only [dictSets]
    rw [lookup_dictSet_self]

/-- Witness for C5 at a concrete record with value 250. -/
theorem c5_metric_value_categorization_and_anomaly_witness :
    getNum [("value", Json.num 250)] "value" = some 250 ∧
    (∃ d, enrich_metric [("value", Json.num 250)] "2024-01-01" = some d ∧
      pyGet d "value_range" = some (.str (categorize_metric_value 250)) ∧
      pyGet d "is_anomaly" = some (.bool (detect_anomaly 250))) ∧
    detect_anomaly 250 = true :=
  ⟨by decide,
   (c5_metric_value_categorization_and_anomaly [("value", Json.num 250)]
     "2024-01-01" 250 (by decide)).1,
   (c5_metric_value_categorization_and_anomaly [("value", Json.num 250)]
     "2024-01-01" 250 (by decide)).2.2.2.2.2.2.2.2.2⟩

theorem categorize_duration_spec (d : ℚ) :
    (categorize_duration d = "short" ↔ d < 60) ∧
    (categorize_duration d = "medium" ↔ 60 ≤ d ∧ d < 600) ∧
    (categorize_duration d = "long" ↔ 600 ≤ d) := by
  unfold categorize_duration
  split_ifs with h1 h2
  · exact ⟨iff_of_true rfl h1,
      iff_of_false (by decide) (fun hc => by linarith [hc.1]),
      iff_of_false (by decide) (fun hc => by linarith)⟩
  · push_neg at h1
    exact ⟨iff_of_false (by decide) (fun hc => by linarith),
      iff_of_true rfl ⟨h1, h2⟩,
      iff_of_false (by decide) (fun hc => by linarith)⟩
  · push_neg at h1 h2
    exact ⟨iff_of_false (by decide) (fun hc => by linarith),
      iff_of_false (by decide) (fun hc => by linarith [hc.2]),
      iff_of_true rfl h2⟩

/-- **C6.** For every user_action record, the enrichment computes
`session_duration_category` as `short` below 60 seconds, `medium` below
600 seconds and `long` otherwise; durations 30, 300, 3000 map to short,
medium, long. -/
theorem c6_user_action_duration_categorization
    (data : PyDict) (today : String) (duration : ℚ)
    (h : getNum data "session_duration" = some duration) :
    (∃ d, enrich_user_action data today = some d ∧
      pyGet d "session_duration_category"
        = some (.str (categorize_duration duration))) ∧
    (categorize_duration duration = "short" ↔ duration < 60) ∧
    (categorize_duration duration = "medium" ↔ 60 ≤ duration ∧ duration < 600) ∧
    (categorize_duration duration = "long" ↔ 600 ≤ duration) ∧
    categorize_duration 30 = "short" ∧ categorize_duration 300 = "medium" ∧
    categorize_duration 3000 = "long" := by
  obtain ⟨s1, s2, s3⟩ := categorize_duration_spec duration
  refine ⟨?_, s1, s2, s3, by decide, by decide, by decide⟩
  have he : enrich_user_action data today =
      some (dictSets data
        [("action_date", .str today),
         ("session_duration_category", .str (categorize_duration duration))]) := by
    simp [enrich_user_action, h]
  refine ⟨_, he, ?_⟩
  simp only [dictSets]
  rw [lookup_dictSet_self]

/-- Witness for C6 at a concrete record with duration 30. -/
theorem c6_user_action_duration_categorization_witness :
    getNum [("session_duration", Json.num 30)] "session_duration" = some 30 ∧
    (∃ d, enrich_user_action [("session_duration", Json.num 30)] "2024-01-01"
        = some d ∧
      pyGet d "session_duration_category" = some (.str (categorize_duration 30))) ∧
    categorize_duration 30 = "short" :=
  ⟨by decide,
   (c6_user_action_duration_categorization [("session_duration", Json.num 30)]
     "2024-01-01" 30 (by decide)).1,
   (c6_user_action_duration_categorization [("session_duration", Json.num 30)]
     "2024-01-01" 30 (by decide)).2.2.2.2.1⟩

/-! ## C8: producer batch send -/

/-- **C8.** Every batch send returns a `(success, failed)` pair and never
raises: a transport-level failure of the whole call reports 0 successes and
the full batch as failed, leaves `sent` and the byte total unchanged, and
grows the cumulative `failed` statistic by the batch size; on either
outcome the pair sums to the batch size and the cumulative `sent + failed`
grows by exactly the batch size. -/
theorem c8_send_batch_failure_accounting
    (stats : ProducerStats) (records : List Json) :
    ((send_batch stats records none).2.1 = 0 ∧
     (send_batch stats records none).2.2 = (records.length : Int) ∧
     (send_batch stats records none).1.failed
       = stats.failed + (records.length : Int) ∧
     (send_batch stats records none).1.sent = stats.sent ∧
     (send_batch stats records none).1.total_bytes = stats.total_bytes) ∧
    ∀ transport : Option Nat,
      (send_batch stats records transport).2.1
          + (send_batch stats records transport).2.2
        = (records.length : Int) ∧
      (send_batch stats records transport).1.sent
          + (send_batch stats records transport).1.failed
        = stats.sent + stats.failed + (records.length : Int) := by
  refine ⟨⟨rfl, rfl, rfl, rfl, rfl⟩, ?_⟩
  intro transport
  match transport with
  | none => exact ⟨by simp [send_batch], by simp [send_batch]; ring⟩
  | some fc => exact ⟨by simp [send_batch], by simp [send_batch]; ring⟩

/-! ## C2: partition path -/

theorem daysInMonth_le (y m : Nat) : daysInMonth y m ≤ 31 := by
  unfold daysInMonth
  split_ifs <;> omega

theorem parseTimeEnd_hour_le {l : List Char}
    {t : Nat × Nat × Nat × Nat × Option Int}
    (h : parseTimeEnd l = some t) : t.1 ≤ 23 := by
  unfold parseTimeEnd at h
  split at h
  case h_1 h1 h2 n1 n2 rest =>
    simp only [Option.bind_eq_bind, Option.bind_eq_some] at h
    obtain ⟨hh, hhh, nn, hnn, h⟩ := h
    split_ifs at h with hg
    · split at h
      · simp only [Option.bind_eq_bind, Option.bind_eq_some] at h
        obtain ⟨s, hs, h⟩ := h
        split_ifs at h with hs59
        · simp only [Option.bind_eq_bind, Option.bind_eq_some] at h
          obtain ⟨⟨us, off⟩, hus, h⟩ := h
          simp only [pure, Option.some_inj] at h
          subst h
          exact hg.1
      · simp only [Option.bind_eq_bind, Option.bind_eq_some] at h
        obtain ⟨off, hoff, h⟩ := h
        simp only [pure, Option.some_inj] at h
        subst h
        exact hg.1
  case h_2 => simp at h

theorem fromisoformat_ranges {s : String} {dt : PyDateTime}
    (h : fromisoformat s = some dt) :
    1 ≤ dt.month ∧ dt.month ≤ 12 ∧ 1 ≤ dt.day ∧ dt.day ≤ 31 ∧ dt.hour ≤ 23 := by
  unfold fromisoformat at h
  split at h
  case h_1 y1 y2 y3 y4 m1 m2 d1 d2 rest =>
    simp only [Option.bind_eq_bind, Option.bind_eq_some] at h
    obtain ⟨yh, hyh, yl, hyl, mo, hmo, d, hd, h⟩ := h
    split_ifs at h with hg
    · split at h
      · simp only [pure, Option.some_inj] at h
        subst h
        exact ⟨hg.2.1, hg.2.2.1, hg.2.2.2.1,
          le_trans hg.2.2.2.2 (daysInMonth_le _ _), Nat.zero_le 23⟩
      · split_ifs at h with hsep
        simp only [Option.bind_eq_bind, Option.bind_eq_some] at h
        obtain ⟨⟨hh, nn, sec, us, off⟩, ht, h⟩ := h
        simp only [pure, Option.some_inj] at h
        subst h
        exact ⟨hg.2.1, hg.2.2.1, hg.2.2.2.1,
          le_trans hg.2.2.2.2 (daysInMonth_le _ _), parseTimeEnd_hour_le ht⟩
  case h_2 => simp at h

theorem pad2_length {n : Nat} (h : n ≤ 99) : (pad2 n).length = 2 := by
  interval_cases n <;> decide

/-- **C2.** For every valid record the partition path is computed from the
record's own timestamp and event type as
`event_type=<t>/year=<Y>/month=<MM>/day=<DD>/hour=<HH>` with zero-padded
2-digit month, day and hour; in particular timestamp
`2024-01-15T10:30:00Z` with event type `user_action` yields exactly
`event_type=user_action/year=2024/month=01/day=15/hour=10`. -/
theorem c2_partition_path_format (timestamp event_type : String)
    (dt : PyDateTime)
    (h : fromisoformat (pyReplace timestamp "Z" "+00:00") = some dt) :
    get_partition_path timestamp event_type
      = some ("event_type=" ++ event_type ++ "/year=" ++ toString dt.year ++
          "/month=" ++ pad2 dt.month ++ "/day=" ++ pad2 dt.day ++
          "/hour=" ++ pad2 dt.hour) ∧
    (pad2 dt.month).length = 2 ∧ (pad2 dt.day).length = 2 ∧
    (pad2 dt.hour).length = 2 ∧
    get_partition_path "2024-01-15T10:30:00Z" "user_action"
      = some "event_type=user_action/year=2024/month=01/day=15/hour=10" := by
  obtain ⟨_, hm, _, hd, hh⟩ := fromisoformat_ranges h
  exact ⟨by simp [get_partition_path, h],
    pad2_length (by omega), pad2_length (by omega), pad2_length (by omega),
    by decide⟩

/-- Witness for C2 at the specified concrete timestamp and event type. -/
theorem c2_partition_path_format_witness :
    fromisoformat (pyReplace "2024-01-15T10:30:00Z" "Z" "+00:00")
        = some ⟨2024, 1, 15, 10, 30, 0, 0, some 0⟩ ∧
    get_partition_path "2024-01-15T10:30:00Z" "user_action"
      = some "event_type=user_action/year=2024/month=01/day=15/hour=10" :=
  ⟨by decide,
   (c2_partition_path_format "2024-01-15T10:30:00Z" "user_action"
     ⟨2024, 1, 15, 10, 30, 0, 0, some 0⟩ (by decide)).2.2.2.2⟩

/-! ## C3: record validation -/

/-- **C3.** Validation succeeds iff `timestamp`, `event_type` and `data`
are all present, the timestamp is a string that parses as ISO-8601 after
the trailing-`Z` → `+00:00` substitution, and the event type equals one of
the four known kinds; each failure returns the specific reason: the first
missing field by name, `Invalid timestamp format`, or `Invalid
event_type: ...`. -/
theorem c3_validate_record_spec (r : PyDict) :
    ((validate_record r).1 = true ↔
      ((∃ ts dt, pyGet r "timestamp" = some (.str ts) ∧
          fromisoformat (pyReplace ts "Z" "+00:00") = some dt) ∧
        (∃ et, pyGet r "event_type" = some et ∧ isValidEventType et = true) ∧
        (pyGet r "data").isSome = true)) ∧
    (pyGet r "timestamp" = none →
      validate_record r = (false, "Missing required field: timestamp")) ∧
    ((pyGet r "timestamp").isSome = true → pyGet r "event_type" = none →
      validate_record r = (false, "Missing required field: event_type")) ∧
    ((pyGet r "timestamp").isSome = true → (pyGet r "event_type").isSome = true →
      pyGet r "data" = none →
      validate_record r = (false, "Missing required field: data")) ∧
    (∀ tsv, pyGet r "timestamp" = some tsv →
      (pyGet r "event_type").isSome = true → (pyGet r "data").isSome = true →
      (∀ ts, tsv = .str ts → fromisoformat (pyReplace ts "Z" "+00:00") = none) →
      validate_record r = (false, "Invalid timestamp format")) ∧
    (∀ ts dt et, pyGet r "timestamp" = some (.str ts) →
      fromisoformat (pyReplace ts "Z" "+00:00") = some dt →
      pyGet r "event_type" = some et → (pyGet r "data").isSome = true →
      isValidEventType et = false →
      validate_record r = (false, "Invalid event_type: " ++ pyStrJson et)) := by
  refine ⟨?_, ?_, ?_, ?_, ?_, ?_⟩
  · constructor
    · intro hv
      rcases hts : pyGet r "timestamp" with _ | tsv
      · simp [validate_record, hts] at hv
      rcases het : pyGet r "event_type" with _ | et
      · simp [validate_record, hts, het] at hv
      rcases hdata : pyGet r "data" with _ | dv
      · simp [validate_record, hts, het, hdata] at hv
      cases tsv with
      | str ts =>
        rcases hp : fromisoformat (pyReplace ts "Z" "+00:00") with _ | dt
        · simp [validate_record, hts, het, hdata, hp] at hv
        refine ⟨⟨ts, dt, rfl, hp⟩, ⟨et, rfl, ?_⟩, by simp⟩
        by_contra hev
        simp only [Bool.not_eq_true] at hev
        simp [validate_record, hts, het, hdata, hp, hev] at hv
      | null => simp [validate_record, hts, het, hdata] at hv
      | bool b => simp [validate_record, hts, het, hdata] at hv
      | num q => simp [validate_record, hts, het, hdata] at hv
      | arr xs => simp [validate_record, hts, het, hdata] at hv
      | obj fs => simp [validate_record, hts, het, hdata] at hv
    · rintro ⟨⟨ts, dt, hts, hp⟩, ⟨et, het, hev⟩, hdata⟩
      obtain ⟨dv, hdv⟩ := Option.isSome_iff_exists.mp hdata
      simp [validate_record, hts, het, hdv, hp, hev]
  · intro h
    simp [validate_record, h]
  · intro h1 h2
    obtain ⟨tsv, hts⟩ := Option.isSome_iff_exists.mp h1
    simp [validate_record, hts, h2]
  · intro h1 h2 h3
    obtain ⟨tsv, hts⟩ := Option.isSome_iff_exists.mp h1
    obtain ⟨et, het⟩ := Option.isSome_iff_exists.mp h2
    simp [validate_record, hts, het, h3]
  · intro tsv hts h2 h3 hnp
    obtain ⟨et, het⟩ := Option.isSome_iff_exists.mp h2
    obtain ⟨dv, hdv⟩ := Option.isSome_iff_exists.mp h3
    cases tsv with
    | str ts => simp [validate_record, hts, het, hdv, hnp ts rfl]
    | null => simp [validate_record, hts, het, hdv]
    | bool b => simp [validate_record, hts, het, hdv]
    | num q => simp [validate_record, hts, het, hdv]
    | arr xs => simp [validate_record, hts, het, hdv]
    | obj fs => simp [validate_record, hts, het, hdv]
  · intro ts dt et hts hp het hdata hev
    obtain ⟨dv, hdv⟩ := Option.isSome_iff_exists.mp hdata
    simp [validate_record, hts, het, hdv, hp, hev]

/-- Witness for C3: the spec's concrete cases — a record missing
`event_type`, a record with an unparseable timestamp, a record with an
unknown event type, and a fully valid record. -/
theorem c3_validate_record_spec_witness :
    validate_record [("timestamp", .str "2024-01-15T10:30:00Z")]
      = (false, "Missing required field: event_type") ∧
    validate_record
        [("timestamp", .str "invalid-timestamp"),
         ("event_type", .str "user_action"), ("data", .obj [])]
      = (false, "Invalid timestamp format") ∧
    validate_record
        [("timestamp", .str "2024-01-15T10:30:00Z"),
         ("event_type", .str "unknown_type"), ("data", .obj [])]
      = (false, "Invalid event_type: unknown_type") ∧
    (validate_record
        [("timestamp", .str "2024-01-15T10:30:00Z"),
         ("event_type", .str "user_action"), ("data", .obj [])]).1 = true := by
  refine ⟨?_, ?_, ?_, ?_⟩
  · exact (c3_validate_record_spec
      [("timestamp", .str "2024-01-15T10:30:00Z")]).2.2.1 (by decide) rfl
  · exact (c3_validate_record_spec
      [("timestamp", .str "invalid-timestamp"),
       ("event_type", .str "user_action"), ("data", .obj [])]).2.2.2.2.1
      (.str "invalid-timestamp") rfl (by decide) (by decide)
      (by
        intro ts hts
        cases hts
        decide)
  · exact (c3_validate_record_spec
      [("timestamp", .str "2024-01-15T10:30:00Z"),
       ("event_type", .str "unknown_type"), ("data", .obj [])]).2.2.2.2.2
      "2024-01-15T10:30:00Z" ⟨2024, 1, 15, 10, 30, 0, 0, some 0⟩
      (.str "unknown_type") rfl (by decide) rfl (by decide) (by decide)
  · exact (c3_validate_record_spec
      [("timestamp", .str "2024-01-15T10:30:00Z"),
       ("event_type", .str "user_action"), ("data", .obj [])]).1.mpr
      ⟨⟨"2024-01-15T10:30:00Z", ⟨2024, 1, 15, 10, 30, 0, 0, some 0⟩,
        rfl, by decide⟩,
       ⟨.str "user_action", rfl, by decide⟩, by decide⟩

/-! ## C1: batch statistics invariant -/

/-- Total number of records held across all partition groups. -/
def groupSizes (gs : List (String × List PyDict)) : Nat :=
  (gs.map fun g => g.2.length).sum

theorem groupSizes_addToGroups (gs : List (String × List PyDict))
    (p : String) (r : PyDict) :
    groupSizes (addToGroups gs p r) = groupSizes gs + 1 := by
  induction gs with
  | nil => simp [groupSizes, addToGroups]
  | cons g rest ih =>
    obtain ⟨q, rs⟩ := g
    by_cases h : q = p
    · simp [addToGroups, h, groupSizes]
      omega
    · simp only [addToGroups, if_neg h]
      simp only [groupSizes, List.map_cons, List.sum_cons] at ih ⊢
      omega

theorem groupFold_total (records : List PyDict)
    (gs : List (String × List PyDict)) (f : Nat) :
    groupSizes (records.foldl groupStep (gs, f)).1
        + (records.foldl groupStep (gs, f)).2
      = groupSizes gs + f + records.length := by
  induction records generalizing gs f with
  | nil => simp
  | cons r rest ih =>
    simp only [List.foldl_cons, List.length_cons]
    rcases hp : partitionOf r with _ | p
    · simp only [groupStep, hp]
      rw [ih]
      omega
    · simp only [groupStep, hp]
      rw [ih, groupSizes_addToGroups]
      omega

theorem writeFold_total (writeOk : String → Bool)
    (gs : List (String × List PyDict)) (s f : Nat) :
    (gs.foldl (writeStep writeOk) (s, f)).1
        + (gs.foldl (writeStep writeOk) (s, f)).2
      = s + f + groupSizes gs := by
  induction gs generalizing s f with
  | nil => simp [groupSizes]
  | cons g rest ih =>
    simp only [List.foldl_cons]
    by_cases h : writeOk g.1
    · simp only [writeStep, if_pos h]
      rw [ih]
      simp [groupSizes]
      omega
    · simp only [writeStep, if_neg h]
      rw [ih]
      simp [groupSizes]
      omega

/-- **C1.** For every input list of records, the statistics returned by the
batch writer satisfy `success + failed = total` and `total` equals the
number of input records, for every outcome of the per-partition S3 writes
(and hence regardless of how many records fail partitioning and how many
partition-group writes fail). -/
theorem c1_write_batch_stats_invariant (writeOk : String → Bool)
    (records : List PyDict) :
    (write_batch writeOk records).success + (write_batch writeOk records).failed
        = (write_batch writeOk records).total ∧
    (write_batch writeOk records).total = records.length := by
  constructor
  · rfl
  · simp only [write_batch]
    rw [writeFold_total]
    have hg := groupFold_total records [] 0
    have h0 : groupSizes ([] : List (String × List PyDict)) = 0 := rfl
    rw [h0] at hg
    omega

/-! ## C10: falsy decoded payloads in the ingest handler -/

theorem handlerFold_total (validation : Bool)
    (krs : List (Option Json × KinesisMeta)) (a b : Nat) :
    (krs.foldl (handlerStep validation) (a, b)).1
        + (krs.foldl (handlerStep validation) (a, b)).2
      = a + b + krs.length := by
  induction krs generalizing a b with
  | nil => simp
  | cons kr rest ih =>
    simp only [List.foldl_cons, List.length_cons]
    by_cases h : pyTruthy (process_record validation kr.1 kr.2)
    · simp only [handlerStep, if_pos h]
      rw [ih]
      omega
    · simp only [handlerStep, if_neg h]
      rw [ih]
      omega

/-- Counterexample to **C10** as stated: with validation disabled, a
payload that decodes to the falsy JSON value `{}` is *retained*, not
dropped — `process_record` attaches `kinesis_metadata` to the empty dict,
making it truthy, so the handler counts it as processed (1 processed, 0
invalid), contradicting the claim that every falsy decoded value is
dropped and counted as invalid. -/
theorem c10_counterexample_empty_object_retained :
    process_record false (some (.obj []))
        ⟨"seq-1", "pk-1", 0⟩
      = some [("kinesis_metadata",
          kinesisMetaJson ⟨"seq-1", "pk-1", 0⟩)] ∧
    pyTruthy (process_record false (some (.obj [])) ⟨"seq-1", "pk-1", 0⟩)
      = true ∧
    handler_counts false [(some (.obj []), ⟨"seq-1", "pk-1", 0⟩)] = (1, 0) :=
  ⟨rfl, rfl, rfl⟩

/-- **C10 (amended).** In the ingest handler with validation disabled, a
stream record whose payload decodes to a non-dict JSON value (null, a
boolean, a number, a string or an array — which includes every falsy value
except `{}`) is dropped and counted as invalid, because attaching the
transport metadata to a non-dict raises and the record becomes `None`; a
payload decoding to a dict — even the falsy empty dict — has metadata
attached and is retained (the attached key makes it truthy); and processed
+ invalid always equals the number of delivered records. -/
theorem c10_amended_nondict_dropped (m : KinesisMeta) :
    (∀ j : Json, (∀ fs, j ≠ .obj fs) →
      process_record false (some j) m = none) ∧
    (∀ fs, process_record false (some (.obj fs)) m
        = some (dictSet fs "kinesis_metadata" (kinesisMetaJson m))) ∧
    (∀ fs, pyTruthy (process_record false (some (.obj fs)) m) = true) ∧
    (∀ (validation : Bool) (krs : List (Option Json × KinesisMeta)),
      (handler_counts validation krs).1 + (handler_counts validation krs).2
        = krs.length) := by
  refine ⟨?_, ?_, ?_, ?_⟩
  · intro j hj
    cases j with
    | obj fs => exact absurd rfl (hj fs)
    | null => rfl
    | bool b => rfl
    | num q => rfl
    | str s => rfl
    | arr xs => rfl
  · intro fs
    simp [process_record]
  · intro fs
    have h : process_record false (some (.obj fs)) m
        = some (dictSet fs "kinesis_metadata" (kinesisMetaJson m)) := by
      simp [process_record]
    rw [h]
    cases fs with
    | nil => rfl
    | cons kv rest =>
      obtain ⟨k, v⟩ := kv
      simp only [pyTruthy, dictSet]
      split <;> simp
  · intro validation krs
    have h := handlerFold_total validation krs 0 0
    simpa [handler_counts] using h

/-- Witness for the amended C10: a payload decoding to the falsy non-dict
`0` is dropped and counted invalid with validation disabled. -/
theorem c10_amended_nondict_dropped_witness :
    process_record false (some (.num 0)) ⟨"seq-1", "pk-1", 0⟩ = none ∧
    handler_counts false [(some (.num 0), ⟨"seq-1", "pk-1", 0⟩)] = (0, 1) :=
  ⟨(c10_amended_nondict_dropped ⟨"seq-1", "pk-1", 0⟩).1 (.num 0)
      (fun fs h => by cases h),
   rfl⟩

/-! ## C9: destination-key derivation -/

theorem replaceAux_nil (f : Nat) (pat rep : List Char) :
    replaceAux f [] pat rep = [] := by
  cases f <;> rfl

theorem replaceAux_congr (pat : List Char) (hp : pat ≠ []) :
    ∀ (f1 f2 : Nat) (l rep : List Char), l.length ≤ f1 → l.length ≤ f2 →
      replaceAux f1 l pat rep = replaceAux f2 l pat rep := by
  intro f1
  induction f1 with
  | zero =>
    intro f2 l rep h1 _
    have : l = [] := List.eq_nil_of_length_eq_zero (Nat.le_zero.mp h1)
    subst this
    rw [replaceAux_nil, replaceAux_nil]
  | succ f1' ih =>
    intro f2 l rep h1 h2
    match l with
    | [] => rw [replaceAux_nil, replaceAux_nil]
    | c :: rest =>
      match f2 with
      | 0 => simp at h2
      | f2' + 1 =>
        simp only [replaceAux]
        by_cases hpre : pat.isPrefixOf (c :: rest)
        · simp only [if_pos hpre]
          have hlen : ((c :: rest).drop pat.length).length ≤ f1' := by
            have hp1 : 1 ≤ pat.length := List.length_pos.mpr hp
            simp only [List.length_drop, List.length_cons]
            simp only [List.length_cons] at h1
            omega
          have hlen2 : ((c :: rest).drop pat.length).length ≤ f2' := by
            have hp1 : 1 ≤ pat.length := List.length_pos.mpr hp
            simp only [List.length_drop, List.length_cons]
            simp only [List.length_cons] at h2
            omega
          rw [ih _ _ _ hlen hlen2]
        · simp only [if_neg hpre]
          have hlen : rest.length ≤ f1' := by
            simp only [List.length_cons] at h1
            omega
          have hlen2 : rest.length ≤ f2' := by
            simp only [List.length_cons] at h2
            omega
          rw [ih _ _ _ hlen hlen2]

theorem containsSeq_cons (pat : List Char) (c : Char) (rest : List Char) :
    containsSeq pat (c :: rest)
      = (pat.isPrefixOf (c :: rest) || containsSeq pat rest) := rfl

theorem replaceAux_no_occurrence (pat rep : List Char) :
    ∀ (f : Nat) (l : List Char), l.length ≤ f →
      containsSeq pat l = false → replaceAux f l pat rep = l := by
  intro f
  induction f with
  | zero =>
    intro l _ _
    rfl
  | succ f' ih =>
    intro l hlen hocc
    match l with
    | [] => rfl
    | c :: rest =>
      rw [containsSeq_cons, Bool.or_eq_false_iff] at hocc
      simp only [replaceAux, hocc.1, Bool.false_eq_true, if_false]
      congr 1
      exact ih rest (by simp at hlen; omega) hocc.2

theorem replaceAux_head_match (pat rest rep : List Char) (hp : pat ≠ []) :
    replaceAux (pat ++ rest).length (pat ++ rest) pat rep
      = rep ++ replaceAux rest.length rest pat rep := by
  match hpat : pat with
  | p :: pt =>
    have hpre : (p :: pt).isPrefixOf ((p :: pt) ++ rest) := by
      rw [List.isPrefixOf_iff_prefix]
      exact List.prefix_append _ _
    have hcons : (p :: pt) ++ rest = p :: (pt ++ rest) := rfl
    have hlen : ((p :: pt) ++ rest).length = (pt ++ rest).length + 1 := by
      simp
    rw [hlen, hcons]
    simp only [replaceAux, ← hcons, if_pos hpre]
    have hdrop : ((p :: pt) ++ rest).drop (p :: pt).length = rest :=
      List.drop_left _ _
    rw [hdrop]
    congr 1
    exact replaceAux_congr (p :: pt) (by simp) _ _ rest rep
      (by simp only [List.length_append]; omega) le_rfl

theorem replaceAux_final_match (pat rep : List Char) (hp : pat ≠ []) :
    ∀ (x : List Char),
      (∀ i, i < x.length → pat.isPrefixOf ((x ++ pat).drop i) = false) →
      replaceAux (x ++ pat).length (x ++ pat) pat rep = x ++ rep := by
  intro x
  induction x with
  | nil =>
    intro _
    simp only [List.nil_append]
    have := replaceAux_head_match pat [] rep hp
    simpa [replaceAux_nil] using this
  | cons c x' ih =>
    intro hno
    have h0 : pat.isPrefixOf ((c :: x' ++ pat)) = false := by
      have := hno 0 (by simp)
      simpa using this
    have hcons : (c :: x') ++ pat = c :: (x' ++ pat) := rfl
    have hlen : ((c :: x') ++ pat).length = (x' ++ pat).length + 1 := by simp
    rw [hlen, hcons]
    simp only [replaceAux, ← hcons, h0, Bool.false_eq_true, if_false]
    congr 1
    exact ih fun i hi => by
      have := hno (i + 1) (by simp; omega)
      simpa using this

/-- Counterexample to **C9** as stated: the key `raw/a.json/b.json` is
accepted (it starts with `raw/` and ends with `.json`), but because the
code replaces *every* occurrence of `.json`, the uniqueness suffix is also
injected mid-key, changing the intermediate path — the destination is not
the prefix-substituted key with the suffix before the final extension. -/
theorem c9_counterexample_midkey_extension :
    acceptedKey "raw/a.json/b.json" = true ∧
    new_key "raw/a.json/b.json" "T"
      = "processed/a_transformed_T.json/b_transformed_T.json" ∧
    new_key "raw/a.json/b.json" "T"
      ≠ "processed/a.json/b_transformed_T.json" := by
  refine ⟨by decide, by decide, by decide⟩

/-- **C9 (amended).** For every accepted source key in which `raw/` occurs
only as the leading prefix and `.json` only as the trailing extension —
which is the case for every key the ingest writer produces — the
destination key substitutes the processed-zone prefix for the raw-zone
prefix and injects the uniqueness suffix before the extension, leaving the
intermediate partition path unchanged. (For other accepted keys the
replace-all semantics can rewrite the middle of the key, see the
counterexample.) -/
theorem c9_amended_key_derivation (mid ts : String)
    (h1 : containsSeq "raw/".data (mid.data ++ ".json".data) = false)
    (h2 : ∀ i, i < ("processed/".data ++ mid.data).length →
      ".json".data.isPrefixOf
        ((("processed/".data ++ mid.data) ++ ".json".data).drop i) = false) :
    new_key ("raw/" ++ mid ++ ".json") ts
      = "processed/" ++ mid ++ "_transformed_" ++ ts ++ ".json" ∧
    acceptedKey ("raw/" ++ mid ++ ".json") = true := by
  have hdata : ("raw/" ++ mid ++ ".json").data
      = "raw/".data ++ (mid.data ++ ".json".data) := by
    simp [String.data_append]
  constructor
  · have step1 : pyReplace ("raw/" ++ mid ++ ".json") "raw/" "processed/"
        = ⟨"processed/".data ++ (mid.data ++ ".json".data)⟩ := by
      show String.mk _ = _
      rw [hdata, replaceAux_head_match _ _ _ (by decide),
        replaceAux_no_occurrence _ _ _ _ le_rfl h1]
    have step2 : pyReplace ⟨"processed/".data ++ (mid.data ++ ".json".data)⟩
          ".json" ("_transformed_" ++ ts ++ ".json")
        = ⟨("processed/".data ++ mid.data)
            ++ ("_transformed_" ++ ts ++ ".json").data⟩ := by
      show String.mk _ = _
      have hassoc : "processed/".data ++ (mid.data ++ ".json".data)
          = ("processed/".data ++ mid.data) ++ ".json".data := by
        simp
      simp only [hassoc]
      rw [replaceAux_final_match _ _ (by decide) _ h2]
    show pyReplace (pyReplace _ "raw/" "processed/") ".json" _ = _
    rw [step1, step2]
    apply String.ext
    simp [String.data_append]
  · have hpre : ("raw/".data.isPrefixOf ("raw/" ++ mid ++ ".json").data) = true := by
      rw [List.isPrefixOf_iff_prefix, hdata]
      exact List.prefix_append _ _
    have hsuf : (".json".data.isSuffixOf ("raw/" ++ mid ++ ".json").data) = true := by
      rw [List.isSuffixOf_iff_suffix, hdata]
      have : "raw/".data ++ (mid.data ++ ".json".data)
          = ("raw/".data ++ mid.data) ++ ".json".data := by simp
      rw [this]
      exact List.suffix_append _ _
    simp only [acceptedKey]
    rw [hpre, hsuf]
    rfl

/-- Witness for the amended C9 at a realistic ingest-produced key. -/
theorem c9_amended_key_derivation_witness :
    new_key ("raw/" ++ "event_type=user_action/year=2024/month=01/day=15/hour=10/data_x"
        ++ ".json") "20240115_103000_000000"
      = "processed/" ++ "event_type=user_action/year=2024/month=01/day=15/hour=10/data_x"
        ++ "_transformed_" ++ "20240115_103000_000000" ++ ".json" :=
  (c9_amended_key_derivation
    "event_type=user_action/year=2024/month=01/day=15/hour=10/data_x"
    "20240115_103000_000000" (by decide) (by decide)).1

/-! ## C7: content-addressed record identifier -/

theorem beBytes_length (k n : Nat) : (beBytes k n).length = k := by
  simp [beBytes]

theorem stateBytes_length (st : Sha256State) : (stateBytes st).length = 32 := by
  simp [stateBytes, beBytes_length]

theorem sha256_length (msg : List Nat) : (sha256 msg).length = 32 :=
  stateBytes_length _

theorem beBytes_mem_lt {k n b : Nat} (h : b ∈ beBytes k n) : b < 256 := by
  simp only [beBytes, List.mem_map, List.mem_range] at h
  obtain ⟨i, _, hi⟩ := h
  omega

theorem stateBytes_mem_lt {st : Sha256State} {b : Nat}
    (h : b ∈ stateBytes st) : b < 256 := by
  simp only [stateBytes, List.mem_append] at h
  rcases h with ((((((h | h) | h) | h) | h) | h) | h) | h <;>
    exact beBytes_mem_lt h

theorem sha256_getD_lt (msg : List Nat) (i : Nat) :
    (sha256 msg).getD i 0 < 256 := by
  by_cases h : i < (sha256 msg).length
  · rw [List.getD_eq_getElem _ _ h]
    exact stateBytes_mem_lt (List.getElem_mem h)
  · rw [List.getD_eq_default _ _ (by omega)]
    omega

theorem hexdigestChars_length (msg : List Nat) :
    (hexdigestChars msg).length = 64 := by
  have hgen : ∀ l : List Nat, ((l.map byteHex).flatten).length = 2 * l.length := by
    intro l
    induction l with
    | nil => simp
    | cons b rest ih =>
      simp only [List.map_cons, List.flatten_cons, List.length_append, ih,
        List.length_cons]
      simp [byteHex]
      omega
  show ((sha256 msg).map byteHex).flatten.length = 64
  rw [hgen, sha256_length]

/-- The strict key order on rendered members. -/
def pairLt (a b : String × String) : Prop := a.1 < b.1

instance : IsAntisymm (String × String) pairLt :=
  ⟨fun _ _ h1 h2 => absurd (lt_trans h1 h2) (lt_irrefl _)⟩

theorem sorted_pairLt_of_sorted_nodup {l : List (String × String)}
    (hs : l.Sorted pairLe) (hnd : (l.map Prod.fst).Nodup) :
    l.Sorted pairLt := by
  have hne : l.Pairwise fun a b => a.1 ≠ b.1 := List.pairwise_map.mp hnd
  exact (hs.and hne).imp fun h => lt_of_le_of_ne h.1 h.2

theorem sortPairs_eq_of_perm {l1 l2 : List (String × String)}
    (hp : l1.Perm l2) (hnd : (l1.map Prod.fst).Nodup) :
    sortPairs l1 = sortPairs l2 := by
  have hp1 : (sortPairs l1).Perm l1 := l1.perm_insertionSort pairLe
  have hp2 : (sortPairs l2).Perm l2 := l2.perm_insertionSort pairLe
  have hnd1 : ((sortPairs l1).map Prod.fst).Nodup :=
    ((hp1.map Prod.fst).nodup_iff).mpr hnd
  have hnd2 : ((sortPairs l2).map Prod.fst).Nodup :=
    ((hp2.map Prod.fst).nodup_iff).mpr (((hp.map Prod.fst).nodup_iff).mp hnd)
  exact List.eq_of_perm_of_sorted
    ((hp1.trans hp).trans hp2.symm)
    (sorted_pairLt_of_sorted_nodup (List.sorted_insertionSort pairLe l1) hnd1)
    (sorted_pairLt_of_sorted_nodup (List.sorted_insertionSort pairLe l2) hnd2)

theorem renderFields_eq_map (fs : List (String × Json)) :
    renderFields fs = fs.map fun kv => (kv.1, dumps kv.2) := by
  induction fs with
  | nil => rfl
  | cons kv rest ih =>
    obtain ⟨k, v⟩ := kv
    simp only [renderFields, List.map_cons, ih]

theorem dumps_obj_eq_of_perm {fs1 fs2 : List (String × Json)}
    (hp : fs1.Perm fs2) (hnd : (fs1.map Prod.fst).Nodup) :
    dumps (.obj fs1) = dumps (.obj fs2) := by
  have hperm : (renderFields fs1).Perm (renderFields fs2) := by
    rw [renderFields_eq_map, renderFields_eq_map]
    exact hp.map _
  have hnd' : ((renderFields fs1).map Prod.fst).Nodup := by
    rw [renderFields_eq_map, List.map_map]
    exact hnd
  show "\x7b" ++ joinPairs (sortPairs (renderFields fs1)) ++ "\x7d"
      = "\x7b" ++ joinPairs (sortPairs (renderFields fs2)) ++ "\x7d"
  rw [sortPairs_eq_of_perm hperm hnd']

/-- **C7 (amended).** The record identifier is a pure function of record
content: it is the 16-character prefix of the SHA-256 hex digest of the
key-sorted canonical serialization, so two records with the same fields
and values — in any key order — yield the identical identifier, and every
identifier has exactly 16 characters. (Distinct records are *not*
guaranteed distinct identifiers; a 16-hex-character identifier space is
finite, so collisions exist — see the counterexample.) -/
theorem c7_record_id_content_addressed (fs1 fs2 : List (String × Json))
    (hperm : fs1.Perm fs2) (hnd : (fs1.map Prod.fst).Nodup) :
    generate_record_id (.obj fs1) = generate_record_id (.obj fs2) ∧
    (∀ r : Json, (generate_record_id r).length = 16) ∧
    (∀ r : Json, generate_record_id r
        = ⟨(hexdigestChars (utf8Encode (dumps r))).take 16⟩) := by
  refine ⟨?_, ?_, fun _ => rfl⟩
  · show String.mk _ = String.mk _
    rw [dumps_obj_eq_of_perm hperm hnd]
  · intro r
    show (String.mk _).length = 16
    rw [String.length_mk, List.length_take, hexdigestChars_length]
    decide

/-- Witness for the amended C7: two concrete two-field records that differ
only in key order get the identical identifier. -/
theorem c7_record_id_content_addressed_witness :
    generate_record_id
        (.obj [("amount", .num 5), ("currency", .str "USD")])
      = generate_record_id
        (.obj [("currency", .str "USD"), ("amount", .num 5)]) ∧
    (generate_record_id (.obj [("amount", .num 5)])).length = 16 :=
  ⟨(c7_record_id_content_addressed
      [("amount", .num 5), ("currency", .str "USD")]
      [("currency", .str "USD"), ("amount", .num 5)]
      (List.Perm.swap _ _ _) (by decide)).1,
   (c7_record_id_content_addressed [("amount", .num 5)] [("amount", .num 5)]
      (List.Perm.refl _) (by decide)).2.1 _⟩

/-- Counterexample to **C7** as stated: "changing any field changes the
identifier" is false in principle — the identifier space (16 hex
characters) is finite while the record space is infinite, so by the
pigeonhole principle two records differing in a field's value share an
identifier. -/
theorem c7_counterexample_collision_exists :
    ∃ q1 q2 : ℚ, q1 ≠ q2 ∧
      Json.obj [("n", .num q1)] ≠ Json.obj [("n", .num q2)] ∧
      generate_record_id (.obj [("n", .num q1)])
        = generate_record_id (.obj [("n", .num q2)]) := by
  classical
  have hdig : ∀ k : ℕ, ∀ i : Fin 32,
      (sha256 (utf8Encode (dumps (.obj [("n", .num (k : ℚ))])))).getD i.val 0 < 256 :=
    fun k i => sha256_getD_lt _ _
  obtain ⟨k1, k2, hne, heq⟩ :=
    Finite.exists_ne_map_eq_of_infinite
      (fun (k : ℕ) => fun (i : Fin 32) =>
        (⟨(sha256 (utf8Encode (dumps (.obj [("n", .num (k : ℚ))])))).getD i.val 0,
          hdig k i⟩ : Fin 256))
  have hq : (k1 : ℚ) ≠ (k2 : ℚ) := fun h => hne (Nat.cast_injective h)
  have hd : sha256 (utf8Encode (dumps (.obj [("n", .num (k1 : ℚ))])))
      = sha256 (utf8Encode (dumps (.obj [("n", .num (k2 : ℚ))]))) := by
    apply List.ext_getElem (by rw [sha256_length, sha256_length])
    intro i h1 h2
    have hi : i < 32 := by rw [sha256_length] at h1; exact h1
    have := congrFun heq ⟨i, hi⟩
    simp only [Fin.mk.injEq] at this
    rw [List.getD_eq_getElem _ _ h1, List.getD_eq_getElem _ _ h2] at this
    exact this
  refine ⟨(k1 : ℚ), (k2 : ℚ), hq, ?_, ?_⟩
  · intro h
    simp only [Json.obj.injEq, List.cons.injEq, Prod.mk.injEq,
      Json.num.injEq] at h
    exact hq h.1.2
  · show String.mk _ = String.mk _
    simp only [hexdigestChars, hd]
